import Mathlib

/-!
Verification of the flower classifier encoder/decoder (`f_flower.c`) and the
identifier-name registry (`lib/names.c`) of the iproute2 excerpt.

The C code is shallowly embedded: machine integers become `Nat` (with explicit
`% 2^w` where overflow matters), byte buffers become `List Nat` (one `Nat` per
byte, network order on the wire), fallible functions return `Option`/`Except`.
The host is taken to be little-endian: every 16/32-bit C variable is modelled
by the `Nat` equal to its numeric value on such a host, `htons`/`htonl` are
byte-swaps, and `addattr*` stores the little-endian bytes of that value (so a
`__be16` variable holding `htons p` is stored as the network-order bytes of
`p`, exactly as in the C).
-/

namespace Flower

/-! ### Constants from the kernel uapi headers (external interface) -/

def ETH_ALEN : Nat := 6
def ETH_P_IP : Nat := 0x0800
def ETH_P_IPV6 : Nat := 0x86DD
def ETH_P_8021Q : Nat := 0x8100
def IPPROTO_TCP : Nat := 6
def IPPROTO_UDP : Nat := 17
def IPPROTO_SCTP : Nat := 132
def AF_INET : Nat := 2
def AF_INET6 : Nat := 10
def TCA_CLS_FLAGS_SKIP_HW : Nat := 1
def TCA_CLS_FLAGS_SKIP_SW : Nat := 2

def TCA_FLOWER_CLASSID : Nat := 1
def TCA_FLOWER_INDEV : Nat := 2
def TCA_FLOWER_ACT : Nat := 3
def TCA_FLOWER_KEY_ETH_DST : Nat := 4
def TCA_FLOWER_KEY_ETH_DST_MASK : Nat := 5
def TCA_FLOWER_KEY_ETH_SRC : Nat := 6
def TCA_FLOWER_KEY_ETH_SRC_MASK : Nat := 7
def TCA_FLOWER_KEY_ETH_TYPE : Nat := 8
def TCA_FLOWER_KEY_IP_PROTO : Nat := 9
def TCA_FLOWER_KEY_IPV4_SRC : Nat := 10
def TCA_FLOWER_KEY_IPV4_SRC_MASK : Nat := 11
def TCA_FLOWER_KEY_IPV4_DST : Nat := 12
def TCA_FLOWER_KEY_IPV4_DST_MASK : Nat := 13
def TCA_FLOWER_KEY_IPV6_SRC : Nat := 14
def TCA_FLOWER_KEY_IPV6_SRC_MASK : Nat := 15
def TCA_FLOWER_KEY_IPV6_DST : Nat := 16
def TCA_FLOWER_KEY_IPV6_DST_MASK : Nat := 17
def TCA_FLOWER_KEY_TCP_SRC : Nat := 18
def TCA_FLOWER_KEY_TCP_DST : Nat := 19
def TCA_FLOWER_KEY_UDP_SRC : Nat := 20
def TCA_FLOWER_KEY_UDP_DST : Nat := 21
def TCA_FLOWER_FLAGS : Nat := 22
def TCA_FLOWER_KEY_VLAN_ID : Nat := 23
def TCA_FLOWER_KEY_VLAN_PRIO : Nat := 24
def TCA_FLOWER_KEY_VLAN_ETH_TYPE : Nat := 25
def TCA_FLOWER_KEY_SCTP_SRC : Nat := 41
def TCA_FLOWER_KEY_SCTP_DST : Nat := 42
def TCA_FLOWER_MAX : Nat := 42

/-! ### Byte-order helpers (little-endian host) -/

/-- `htons`/`ntohs`: swap the two bytes of a 16-bit value. -/
def bswap16 (v : Nat) : Nat := (v % 256) * 256 + (v / 256) % 256

/-- Little-endian byte pair of a host 16-bit value. -/
def le16 (v : Nat) : List Nat := [v % 256, v / 256 % 256]

/-- Little-endian bytes of a host 32-bit value. -/
def le32 (v : Nat) : List Nat :=
  [v % 256, v / 256 % 256, v / 65536 % 256, v / 16777216 % 256]

/-- `htonl`: reverse the four bytes of a 32-bit value. -/
def bswap32 (v : Nat) : Nat :=
  (v % 256) * 16777216 + (v / 256 % 256) * 65536 +
    (v / 65536 % 256) * 256 + v / 16777216 % 256

/-! ### `__mask_bits` (f_flower.c lines 391-412)

The C scans the mask bytes in order and, inside each byte, the bits from
bit 7 down to bit 0, carrying the running one-bit count `bits` and the flag
`hole`; it returns `-1` early from inside the loop.  We expose the scanned
bit sequence explicitly (`bitsList`) and run the loop body on it; `none`
models the early `return -1`. -/

/-- The bits of one mask byte, most significant first: `((b >> j) & 1)` for
`j = 7, 6, ..., 0`. -/
def byteBits (b : Nat) : List Nat :=
  [b / 128 % 2, b / 64 % 2, b / 32 % 2, b / 16 % 2,
   b / 8 % 2, b / 4 % 2, b / 2 % 2, b % 2]

/-- All bits of the mask, MSB-first within each byte, bytes in order. -/
def bitsList (addr : List Nat) : List Nat := addr.flatMap byteBits

/-- Loop body of `__mask_bits` over the MSB-first bit sequence.  State is
`(bits, hole)`; `none` is the early `return -1`. -/
def maskBitsGo : List Nat → Nat → Bool → Option Nat
  | [], bits, _ => some bits
  | b :: rest, bits, hole =>
    if b = 1 then
      if hole then none else maskBitsGo rest (bits + 1) hole
    else if bits ≠ 0 then maskBitsGo rest bits true
    else none

/-- `__mask_bits(addr, len)`: count of leading one-bits, or `-1`. -/
def mask_bits (addr : List Nat) : Int :=
  match maskBitsGo (bitsList addr) 0 false with
  | none => -1
  | some bits => (bits : Int)

/-! Spec-side notions for the mask-bit claims. -/

/-- Number of leading one-bits of a bit sequence. -/
def leadOnes (l : List Nat) : Nat := (l.takeWhile (· = 1)).length

/-- Whether a one-bit occurs after a zero-bit in the sequence. -/
def hasOneAfterZero (l : List Nat) : Bool := (l.dropWhile (· = 1)).any (· = 1)

/-! ### The binary attribute sink (libnetlink collaborator, spec section 1)

`addattr_l` and friends append one length-prefixed typed value to the
message and advance `nlmsg_len` by the aligned size of the attribute
(header of 4 bytes plus payload, rounded up to 4).  The message buffer is
modelled as the list of attributes appended after the options container was
opened, together with the running `nlmsg_len`. -/

/-- `RTA_ALIGN` / `NLMSG_ALIGN`: round up to a multiple of 4. -/
def align4 (n : Nat) : Nat := (n + 3) / 4 * 4

/-- One (identifier, payload-bytes) attribute as written to the message. -/
structure Rtattr where
  atype : Nat
  payload : List Nat
  deriving DecidableEq, Repr

/-- Space an attribute occupies in the message: aligned header + payload. -/
def attrSize (a : Rtattr) : Nat := align4 (4 + a.payload.length)

/-! ### Encoder working state (flower_parse_opt locals) -/

/-- Locals of `flower_parse_opt` plus the message sink.  `ethType`,
`vlanEthtype` are the host numeric values of the `__be16` variables (so the
comparisons against `htons(...)` read exactly as in the C); `ipProto` starts
at `0xff`; `attrs` are the attributes appended after the options container
was opened and `msgLen` is the current `nlmsg_len`. -/
structure PState where
  ethType : Nat
  vlanEthtype : Nat
  ipProto : Nat
  flags : Nat
  msgLen : Nat
  attrs : List Rtattr
  deriving DecidableEq, Repr

/-- `addattr_l`/`addattr8/16/32`: append one attribute. -/
def addattr (s : PState) (ty : Nat) (payload : List Nat) : PState :=
  { s with attrs := s.attrs ++ [⟨ty, payload⟩],
           msgLen := align4 s.msgLen + align4 (4 + payload.length) }

/-- `get_prefix`'s result (utils.c collaborator, specified at its
interface): resolved family, byte length, prefix bit length and the
network-order address bytes. -/
structure InetPrefix where
  family : Nat
  bytelen : Nat
  bitlen : Nat
  data : List Nat
  deriving DecidableEq, Repr

/-- The `ip_proto` argument after tokenization: one of the three symbolic
names, or a hex literal handed to `get_u8` (`none` = `get_u8` failed). -/
inductive IpProtoArg where
  | tcp
  | udp
  | sctp
  | num (v : Option Nat)
  deriving DecidableEq, Repr

/-- One clause of the match language, with each argument already taken
through its external parsing collaborator (spec section 1 excludes
tokenization and the generic option parsing): `none` models that the
collaborator rejected the token. -/
inductive Clause where
  | classid (h : Option Nat)
  | skip_hw
  | skip_sw
  | indev (name : List Nat)
  | vlan_id (v : Option Nat)
  | vlan_prio (v : Option Nat)
  | vlan_ethtype (v : Option Nat)
  | dst_mac (a : Option (List Nat))
  | src_mac (a : Option (List Nat))
  | ip_proto (a : IpProtoArg)
  | dst_ip (p4 p6 : Option InetPrefix)
  | src_ip (p4 p6 : Option InetPrefix)
  | dst_port (p : Option Nat)
  | src_port (p : Option Nat)
  | action (blob : Option (List Rtattr))
  | help
  deriving DecidableEq, Repr

/-- `flower_parse_eth_addr` (lines 53-66): emit the parsed 6-byte address
and an unconditionally all-ones 6-byte mask. -/
def flower_parse_eth_addr (str : Option (List Nat)) (addr_type mask_type : Nat)
    (s : PState) : Option PState :=
  match str with
  | none => none
  | some addr =>
    let s := addattr s addr_type addr
    some (addattr s mask_type (List.replicate ETH_ALEN 0xff))

/-- `flower_parse_vlan_eth_type` (lines 68-85): gate on the outer ethertype
being 802.1Q, then record and emit the VLAN-inner ethertype.  A failed
`ll_proto_a2n` calls `invarg`, which aborts the parse. -/
def flower_parse_vlan_eth_type (str : Option Nat) (eth_type : Nat) (ty : Nat)
    (s : PState) : Option PState :=
  if eth_type ≠ bswap16 ETH_P_8021Q then none
  else
    match str with
    | none => none
    | some vlan_eth_type =>
      let s := addattr s ty (le16 vlan_eth_type)
      some { s with vlanEthtype := vlan_eth_type }

/-- `flower_parse_ip_proto` (lines 87-111): gate on the effective ethertype
being IPv4 or IPv6, resolve the symbolic or hex protocol, emit it and
record it as the effective transport protocol.  `get_u8` only succeeds on
values below 2^8 (its range guarantee). -/
def flower_parse_ip_proto (str : IpProtoArg) (eth_type : Nat) (ty : Nat)
    (s : PState) : Option PState :=
  if eth_type ≠ bswap16 ETH_P_IP ∧ eth_type ≠ bswap16 ETH_P_IPV6 then none
  else
    let ipp : Option Nat :=
      match str with
      | .tcp => some IPPROTO_TCP
      | .udp => some IPPROTO_UDP
      | .sctp => some IPPROTO_SCTP
      | .num none => none
      | .num (some v) => if v < 256 then some v else none
    match ipp with
    | none => none
    | some ip_proto =>
      let s := addattr s ty [ip_proto]
      some { s with ipProto := ip_proto }

/-- Mask synthesis of `flower_parse_ip_addr` (lines 143-155): per 4-byte
group, all-ones while 32 or more prefix bits remain, the network-order
bytes of `0xFFFFFFFF << (32 - bits)` for the final partial group, all-zero
once the prefix is exhausted.  `addr.data[i]` is `0xffffffff` from the
preceding `memset`, the shift is a 32-bit shift, and `htonl` makes the
stored bytes big-endian. -/
def flower_ip_mask_groups : Nat → Nat → List Nat
  | 0, _ => []
  | g + 1, bits =>
    if bits = 0 then [0, 0, 0, 0] ++ flower_ip_mask_groups g 0
    else if bits / 32 ≥ 1 then
      [0xff, 0xff, 0xff, 0xff] ++ flower_ip_mask_groups g (bits - 32)
    else
      le32 (bswap32 ((0xffffffff <<< (32 - bits)) % 2 ^ 32)) ++
        flower_ip_mask_groups g 0

/-- The full mask for an address of `bytelen` bytes and prefix `bitlen`. -/
def flower_ip_mask (bytelen bitlen : Nat) : List Nat :=
  flower_ip_mask_groups (bytelen / 4) bitlen

/-- `flower_parse_ip_addr` (lines 113-161): select the family from the
effective ethertype, check the parsed family matches, emit the address and
the synthesized prefix mask under the family's attribute-id pair.  `p4`/`p6`
are `get_prefix`'s outcome when asked for `AF_INET`/`AF_INET6`. -/
def flower_parse_ip_addr (p4 p6 : Option InetPrefix) (eth_type : Nat)
    (addr4_type mask4_type addr6_type mask6_type : Nat)
    (s : PState) : Option PState :=
  if eth_type = bswap16 ETH_P_IP ∨ eth_type = bswap16 ETH_P_IPV6 then
    let family := if eth_type = bswap16 ETH_P_IP then AF_INET else AF_INET6
    match (if family = AF_INET then p4 else p6) with
    | none => none
    | some addr =>
      if addr.family ≠ family then none
      else
        let s := addattr s (if addr.family = AF_INET then addr4_type else addr6_type)
          addr.data
        some (addattr s (if addr.family = AF_INET then mask4_type else mask6_type)
          (flower_ip_mask addr.bytelen addr.bitlen))
  else none

/-- `flower_port_attr_type` (lines 163-178): transport protocol and
direction select the port attribute identifier; unrecognized protocols give
the error sentinel `-1`. -/
def flower_port_attr_type (ip_port : Nat) (is_src : Bool) : Int :=
  if ip_port = IPPROTO_TCP then
    if is_src then TCA_FLOWER_KEY_TCP_SRC else TCA_FLOWER_KEY_TCP_DST
  else if ip_port = IPPROTO_UDP then
    if is_src then TCA_FLOWER_KEY_UDP_SRC else TCA_FLOWER_KEY_UDP_DST
  else if ip_port = IPPROTO_SCTP then
    if is_src then TCA_FLOWER_KEY_SCTP_SRC else TCA_FLOWER_KEY_SCTP_DST
  else -1

/-- `flower_parse_port` (lines 180-198): resolve the attribute identifier
from the effective transport protocol (hard error on `-1`), parse the
decimal port (`get_be16` succeeds only below 2^16), store it as `__be16`. -/
def flower_parse_port (str : Option Nat) (is_src : Bool) (s : PState) :
    Option PState :=
  let ty := flower_port_attr_type s.ipProto is_src
  if ty < 0 then none
  else
    match str with
    | none => none
    | some port =>
      if port < 65536 then some (addattr s ty.toNat (le16 (bswap16 port)))
      else none

/-- What one encoder step is allowed to do to the state, as far as the
message is concerned: the outer ethertype is untouched, attributes are only
appended, and (from an aligned start) `nlmsg_len` advances by exactly the
aligned sizes of the appended attributes. -/
def StateExtends (s s' : PState) : Prop :=
  s'.ethType = s.ethType ∧
  ∃ Δ, s'.attrs = s.attrs ++ Δ ∧
    (4 ∣ s.msgLen → s'.msgLen = s.msgLen + (Δ.map attrSize).sum ∧ 4 ∣ s'.msgLen)

/-- The effective ethertype handed to the IP-dependent parsers:
`vlan_ethtype ? vlan_ethtype : eth_type` (lines 309, 319, 332). -/
def effEth (s : PState) : Nat :=
  if s.vlanEthtype ≠ 0 then s.vlanEthtype else s.ethType

/-- One iteration of the clause loop of `flower_parse_opt` (lines 227-374).
`none` is `return -1`. -/
def clauseStep (s : PState) : Clause → Option PState
  | .classid h =>
    match h with
    | none => none
    | some handle => some (addattr s TCA_FLOWER_CLASSID (le32 (handle % 2 ^ 32)))
  | .skip_hw => some { s with flags := s.flags ||| TCA_CLS_FLAGS_SKIP_HW }
  | .skip_sw => some { s with flags := s.flags ||| TCA_CLS_FLAGS_SKIP_SW }
  | .indev name => some (addattr s TCA_FLOWER_INDEV (name.take 15 ++ [0]))
  | .vlan_id v =>
    if s.ethType ≠ bswap16 ETH_P_8021Q then none
    else
      match v with
      | none => none
      | some vid =>
        if vid < 65536 ∧ vid &&& 0xfffff000 = 0 then
          some (addattr s TCA_FLOWER_KEY_VLAN_ID (le16 vid))
        else none
  | .vlan_prio v =>
    if s.ethType ≠ bswap16 ETH_P_8021Q then none
    else
      match v with
      | none => none
      | some prio =>
        if prio < 256 ∧ prio &&& 0xfffffff8 = 0 then
          some (addattr s TCA_FLOWER_KEY_VLAN_PRIO [prio])
        else none
  | .vlan_ethtype v =>
    flower_parse_vlan_eth_type v s.ethType TCA_FLOWER_KEY_VLAN_ETH_TYPE s
  | .dst_mac a =>
    flower_parse_eth_addr a TCA_FLOWER_KEY_ETH_DST TCA_FLOWER_KEY_ETH_DST_MASK s
  | .src_mac a =>
    flower_parse_eth_addr a TCA_FLOWER_KEY_ETH_SRC TCA_FLOWER_KEY_ETH_SRC_MASK s
  | .ip_proto a =>
    flower_parse_ip_proto a (effEth s) TCA_FLOWER_KEY_IP_PROTO s
  | .dst_ip p4 p6 =>
    flower_parse_ip_addr p4 p6 (effEth s)
      TCA_FLOWER_KEY_IPV4_DST TCA_FLOWER_KEY_IPV4_DST_MASK
      TCA_FLOWER_KEY_IPV6_DST TCA_FLOWER_KEY_IPV6_DST_MASK s
  | .src_ip p4 p6 =>
    flower_parse_ip_addr p4 p6 (effEth s)
      TCA_FLOWER_KEY_IPV4_SRC TCA_FLOWER_KEY_IPV4_SRC_MASK
      TCA_FLOWER_KEY_IPV6_SRC TCA_FLOWER_KEY_IPV6_SRC_MASK s
  | .dst_port p => flower_parse_port p false s
  | .src_port p => flower_parse_port p true s
  | .action blob =>
    match blob with
    | none => none
    | some attrs => some (attrs.foldl (fun s a => addattr s a.atype a.payload) s)
  | .help => none

/-- The clause loop. -/
def runClauses (s : PState) : List Clause → Option PState
  | [] => some s
  | c :: cs =>
    match clauseStep s c with
    | none => none
    | some s' => runClauses s' cs

/-- `flower_parse_opt` (lines 200-389) with a NULL handle argument.
`eth_type0` is the host value of the `__be16` protocol taken from
`tcm_info`; `len0` the incoming `nlmsg_len`.  Returns the final state
together with the finalized `rta_len` of the outer options container
(`(((void *)n) + n->nlmsg_len) - (void *)tail`). -/
def initPState (eth_type0 len0 : Nat) : PState :=
  { ethType := eth_type0, vlanEthtype := 0, ipProto := 0xff, flags := 0,
    msgLen := align4 len0 + 4, attrs := [] }

def flower_parse_opt (eth_type0 len0 : Nat) (cs : List Clause) :
    Option (PState × Nat) :=
  let tailOff := align4 len0
  match runClauses (initPState eth_type0 len0) cs with
  | none => none
  | some s =>
    let s := addattr s TCA_FLOWER_FLAGS (le32 s.flags)
    let s := addattr s TCA_FLOWER_KEY_ETH_TYPE (le16 s.ethType)
    some (s, s.msgLen - tailOff)

/-! ### Decoder (flower_print_opt and helpers, lines 414-595)

The attribute table `tb` produced by `parse_rtattr_nested` is a C array of
`TCA_FLOWER_MAX + 1` pointers; it is modelled as a function from the index
to an optional attribute.  `fprintf` output is modelled as a list of
semantic output items.  Undefined behaviour — reading the array out of
bounds, or dereferencing a NULL attribute pointer — is modelled as
`Except.error`. -/

/-- `rta_getattr_u8`. -/
def rta_getattr_u8 (bs : List Nat) : Nat := bs.headD 0

/-- `rta_getattr_u16` (little-endian host read). -/
def rta_getattr_u16 (bs : List Nat) : Nat := bs.headD 0 + 256 * bs.getD 1 0

/-- `rta_getattr_u32` (little-endian host read). -/
def rta_getattr_u32 (bs : List Nat) : Nat :=
  bs.headD 0 + 256 * bs.getD 1 0 + 65536 * bs.getD 2 0 + 16777216 * bs.getD 3 0

/-- `rta_getattr_be16`: `ntohs(rta_getattr_u16(rta))`. -/
def rta_getattr_be16 (bs : List Nat) : Nat := bswap16 (rta_getattr_u16 bs)

/-- Which of the paired fields a print helper is labelling. -/
inductive FieldDir where
  | dst
  | src
  deriving DecidableEq, Repr

/-- How a mask renders after an address: raw mask bytes, or `/<bits>`. -/
inductive MaskSuffix where
  | raw (bytes : List Nat)
  | bits (n : Nat)
  deriving DecidableEq, Repr

/-- One semantic unit of the decoder's output. -/
inductive OutItem where
  | handle (h : Nat)
  | classid (v : Nat)
  | indev (s : List Nat)
  | vlan_id (v : Nat)
  | vlan_prio (v : Nat)
  | eth_addr (dir : FieldDir) (addr : List Nat) (suffix : Option MaskSuffix)
  | eth_type (v : Nat)
  | ip_proto (v : Nat)
  | ip_addr (dir : FieldDir) (family : Nat) (addr : List Nat)
      (suffix : Option MaskSuffix)
  | port (dir : FieldDir) (v : Nat)
  | skip_hw
  | skip_sw
  | action
  deriving DecidableEq, Repr

/-- `flower_print_eth_addr` (lines 414-433): skip if the address is absent
or mis-sized; print the address; then skip the suffix if the mask is absent
or mis-sized, print the raw mask on a negative `__mask_bits`, `/<bits>` when
below the full 48, and nothing at the full width. -/
def flower_print_eth_addr (dir : FieldDir)
    (addr_attr mask_attr : Option Rtattr) : List OutItem :=
  match addr_attr with
  | none => []
  | some a =>
    if a.payload.length ≠ ETH_ALEN then []
    else
      let suffix : Option MaskSuffix :=
        match mask_attr with
        | none => none
        | some m =>
          if m.payload.length ≠ ETH_ALEN then none
          else
            let bits := mask_bits m.payload
            if bits < 0 then some (.raw m.payload)
            else if bits < ETH_ALEN * 8 then some (.bits bits.toNat)
            else none
      [.eth_addr dir a.payload suffix]

/-- `flower_print_eth_type` (lines 435-452): print the 16-bit ethertype and
establish the decode-side effective ethertype; absent attribute leaves the
caller's value (0) untouched. -/
def flower_print_eth_type (eth_type : Nat) (attr : Option Rtattr) :
    List OutItem × Nat :=
  match attr with
  | none => ([], eth_type)
  | some a =>
    let v := rta_getattr_u16 a.payload
    ([.eth_type v], v)

/-- `flower_print_ip_proto` (lines 454-473): print the 8-bit protocol and
establish the decode-side effective transport protocol; absent attribute
leaves the caller's value (0xff) untouched. -/
def flower_print_ip_proto (ip_proto : Nat) (attr : Option Rtattr) :
    List OutItem × Nat :=
  match attr with
  | none => ([], ip_proto)
  | some a =>
    let v := rta_getattr_u8 a.payload
    ([.ip_proto v], v)

/-- `flower_print_ip_addr` (lines 475-510): pick the v4 or v6 attribute
pair from the decode-side ethertype (anything else prints nothing), then
render like the MAC case with the family's byte length. -/
def flower_print_ip_addr (dir : FieldDir) (eth_type : Nat)
    (addr4_attr mask4_attr addr6_attr mask6_attr : Option Rtattr) :
    List OutItem :=
  if eth_type = bswap16 ETH_P_IP ∨ eth_type = bswap16 ETH_P_IPV6 then
    let family := if eth_type = bswap16 ETH_P_IP then AF_INET else AF_INET6
    let addr_attr := if family = AF_INET then addr4_attr else addr6_attr
    let mask_attr := if family = AF_INET then mask4_attr else mask6_attr
    let len := if family = AF_INET then 4 else 16
    match addr_attr with
    | none => []
    | some a =>
      if a.payload.length ≠ len then []
      else
        let suffix : Option MaskSuffix :=
          match mask_attr with
          | none => none
          | some m =>
            if m.payload.length ≠ len then none
            else
              let bits := mask_bits m.payload
              if bits < 0 then some (.raw m.payload)
              else if bits < len * 8 then some (.bits bits.toNat)
              else none
        [.ip_addr dir family a.payload suffix]
  else []

/-- `flower_print_port` (lines 512-515): passes the attribute straight to
`rta_getattr_be16` with no NULL check — an absent attribute is a NULL
dereference, modelled as `Except.error`. -/
def flower_print_port (dir : FieldDir) (attr : Option Rtattr) :
    Except Unit OutItem :=
  match attr with
  | none => .error ()
  | some a => .ok (.port dir (rta_getattr_be16 a.payload))

/-- Indexing the attribute table `struct rtattr *tb[TCA_FLOWER_MAX + 1]`
with a C `int`: any index outside `0 .. TCA_FLOWER_MAX` is an out-of-bounds
read, modelled as `Except.error`. -/
def tbGetI (tb : Nat → Option Rtattr) (i : Int) : Except Unit (Option Rtattr) :=
  if 0 ≤ i ∧ i ≤ (TCA_FLOWER_MAX : Int) then .ok (tb i.toNat) else .error ()

/-- `flower_print_opt` (lines 517-595) on a demultiplexed attribute table.
All helpers except the two port prints are total; the ports first index the
table with `flower_port_attr_type`'s result (possibly `-1`) and then print
through the unchecked `flower_print_port`. -/
def flower_print_opt (handle : Nat) (tb : Nat → Option Rtattr) :
    Except Unit (List OutItem) := do
  let out : List OutItem := if handle ≠ 0 then [.handle handle] else []
  let out := out ++
    (match tb TCA_FLOWER_CLASSID with
     | some a => [OutItem.classid (rta_getattr_u32 a.payload)]
     | none => [])
  let out := out ++
    (match tb TCA_FLOWER_INDEV with
     | some a => [OutItem.indev a.payload]
     | none => [])
  let out := out ++
    (match tb TCA_FLOWER_KEY_VLAN_ID with
     | some a => [OutItem.vlan_id (rta_getattr_u16 a.payload)]
     | none => [])
  let out := out ++
    (match tb TCA_FLOWER_KEY_VLAN_PRIO with
     | some a => [OutItem.vlan_prio (rta_getattr_u8 a.payload)]
     | none => [])
  let out := out ++ flower_print_eth_addr .dst
    (tb TCA_FLOWER_KEY_ETH_DST) (tb TCA_FLOWER_KEY_ETH_DST_MASK)
  let out := out ++ flower_print_eth_addr .src
    (tb TCA_FLOWER_KEY_ETH_SRC) (tb TCA_FLOWER_KEY_ETH_SRC_MASK)
  let et := flower_print_eth_type 0 (tb TCA_FLOWER_KEY_ETH_TYPE)
  let out := out ++ et.1
  let ipp := flower_print_ip_proto 0xff (tb TCA_FLOWER_KEY_IP_PROTO)
  let out := out ++ ipp.1
  let out := out ++ flower_print_ip_addr .dst et.2
    (tb TCA_FLOWER_KEY_IPV4_DST) (tb TCA_FLOWER_KEY_IPV4_DST_MASK)
    (tb TCA_FLOWER_KEY_IPV6_DST) (tb TCA_FLOWER_KEY_IPV6_DST_MASK)
  let out := out ++ flower_print_ip_addr .src et.2
    (tb TCA_FLOWER_KEY_IPV4_SRC) (tb TCA_FLOWER_KEY_IPV4_SRC_MASK)
    (tb TCA_FLOWER_KEY_IPV6_SRC) (tb TCA_FLOWER_KEY_IPV6_SRC_MASK)
  let pd ← tbGetI tb (flower_port_attr_type ipp.2 false)
  let od ← flower_print_port .dst pd
  let ps ← tbGetI tb (flower_port_attr_type ipp.2 true)
  let os ← flower_print_port .src ps
  let out := out ++ [od, os]
  let out := out ++
    (match tb TCA_FLOWER_FLAGS with
     | some a =>
       let fl := rta_getattr_u32 a.payload
       (if fl &&& TCA_CLS_FLAGS_SKIP_HW ≠ 0 then [OutItem.skip_hw] else []) ++
         (if fl &&& TCA_CLS_FLAGS_SKIP_SW ≠ 0 then [OutItem.skip_sw] else [])
     | none => [])
  let out := out ++
    (match tb TCA_FLOWER_ACT with
     | some _ => [OutItem.action]
     | none => [])
  return out

/-! ### Spec-side notions for the encoder claims -/

/-- Big-endian (network order) bytes of a 32-bit value. -/
def be32 (v : Nat) : List Nat :=
  [v / 16777216 % 256, v / 65536 % 256, v / 256 % 256, v % 256]

/-- The prefix-to-mask construction as the spec words it: per 4-byte group,
all-ones when fully covered by `p`, all-zero when fully beyond `p`, and the
network-order bytes of `0xFFFFFFFF << (32 - r)`, `r = p mod 32`, for the
boundary group. -/
def specIpMask (b p : Nat) : List Nat :=
  (List.range (b / 4)).flatMap (fun i =>
    if 32 * (i + 1) ≤ p then [0xff, 0xff, 0xff, 0xff]
    else if p ≤ 32 * i then [0, 0, 0, 0]
    else be32 ((0xffffffff <<< (32 - p % 32)) % 2 ^ 32))

/-- The clauses gated on the outer ethertype being 802.1Q. -/
def isVlanClause : Clause → Bool
  | .vlan_id _ => true
  | .vlan_prio _ => true
  | .vlan_ethtype _ => true
  | _ => false

/-- The clauses gated on the effective ethertype being IPv4/IPv6. -/
def isIpGatedClause : Clause → Bool
  | .ip_proto _ => true
  | .dst_ip _ _ => true
  | .src_ip _ _ => true
  | _ => false

/-- The clauses gated on the effective transport protocol. -/
def isPortClause : Clause → Bool
  | .dst_port _ => true
  | .src_port _ => true
  | _ => false

end Flower

namespace Names

/-! ### Identifier registry (lib/names.c)

The registry file is a list of text lines (the `fgets` loop).  The sscanf
conversions `%x`, `%d`, `%s` are C-library collaborators; they are modelled
with their standard semantics for the four format strings used in
`read_id_name`: skip whitespace, then `%x` takes an optional `0x`/`0X`
prefix and hex digits, `%d` an optional `-` and decimal digits, `%s` a
nonempty non-whitespace token.  The `" #"`-terminated variants of the
formats succeed on exactly the same inputs as the `"\n"` ones (trailing
whitespace and literal directives cannot reduce the conversion count), so
each pair collapses to one parse here. -/

/-- Whitespace as the sscanf conversions treat it. -/
def isWs (c : Char) : Bool :=
  c = ' ' ∨ c = '\t' ∨ c = '\n' ∨ c = '\r'

/-- Hexadecimal digit value. -/
def hexVal : Char → Option Nat
  | c =>
    if '0' ≤ c ∧ c ≤ '9' then some (c.toNat - '0'.toNat)
    else if 'a' ≤ c ∧ c ≤ 'f' then some (c.toNat - 'a'.toNat + 10)
    else if 'A' ≤ c ∧ c ≤ 'F' then some (c.toNat - 'A'.toNat + 10)
    else none

/-- Decimal digit value. -/
def decVal (c : Char) : Option Nat :=
  if '0' ≤ c ∧ c ≤ '9' then some (c.toNat - '0'.toNat) else none

/-- Greedy run of hex digits. -/
def hexDigits : List Char → Nat → Nat × List Char
  | c :: rest, acc =>
    match hexVal c with
    | some d => hexDigits rest (acc * 16 + d)
    | none => (acc, c :: rest)
  | [], acc => (acc, [])

/-- Greedy run of decimal digits. -/
def decDigits : List Char → Nat → Nat × List Char
  | c :: rest, acc =>
    match decVal c with
    | some d => decDigits rest (acc * 10 + d)
    | none => (acc, c :: rest)
  | [], acc => (acc, [])

/-- The `%x` conversion. -/
def scanHex (cs0 : List Char) : Option (Nat × List Char) :=
  let cs := cs0.dropWhile isWs
  let body :=
    match cs with
    | '0' :: c :: rest =>
      if (c = 'x' ∨ c = 'X') ∧ (hexVal (rest.headD ' ')).isSome then rest else cs
    | _ => cs
  match body with
  | c :: rest =>
    match hexVal c with
    | some d => some (hexDigits rest d)
    | none => none
  | [] => none

/-- The `%d` conversion. -/
def scanDec (cs0 : List Char) : Option (Int × List Char) :=
  let cs := cs0.dropWhile isWs
  let neg := cs.headD ' ' = '-'
  let body := if neg then cs.drop 1 else cs
  match body with
  | c :: rest =>
    match decVal c with
    | some d =>
      let r := decDigits rest d
      some (if neg then -(r.1 : Int) else (r.1 : Int), r.2)
    | none => none
  | [] => none

/-- The `%s` conversion. -/
def scanStr (cs0 : List Char) : Option (List Char × List Char) :=
  let cs := cs0.dropWhile isWs
  let tok := cs.takeWhile (fun c => ¬ isWs c)
  if tok = [] then none else some (tok, cs.drop tok.length)

/-- A C `int` from the low 32 bits, two's complement. -/
def toInt32 (n : Nat) : Int :=
  let m : Nat := n % 2 ^ 32
  if m < 2 ^ 31 then (m : Int) else (m : Int) - 2 ^ 32

/-- `sscanf(p, "%x:%x %s")`, giving `(maj << 16) | min` (line 34-37). -/
def formMajMin (p : List Char) : Option (Int × List Char) :=
  match scanHex p with
  | none => none
  | some (maj, r1) =>
    match r1 with
    | ':' :: r2 =>
      match scanHex r2 with
      | none => none
      | some (mi, r3) =>
        match scanStr r3 with
        | none => none
        | some (name, _) => some (toInt32 ((maj <<< 16) ||| mi), name)
    | _ => none

/-- `sscanf(p, "0x%x %s")` (line 38-39). -/
def formHex (p : List Char) : Option (Int × List Char) :=
  match p with
  | '0' :: 'x' :: r =>
    match scanHex r with
    | none => none
    | some (v, r2) =>
      match scanStr r2 with
      | none => none
      | some (name, _) => some (toInt32 v, name)
  | _ => none

/-- `sscanf(p, "%d %s")` (line 40-41). -/
def formDec (p : List Char) : Option (Int × List Char) :=
  match scanDec p with
  | none => none
  | some (v, r1) =>
    match scanStr r1 with
    | none => none
    | some (name, _) => some (toInt32 (v.emod (2 ^ 32)).toNat, name)

/-- Per-line outcome of `read_id_name` (lines 20-49). -/
inductive LineRes where
  | skip
  | bad (text : List Char)
  | entry (id : Int) (name : List Char)
  deriving DecidableEq, Repr

/-- One line through `read_id_name`'s body: strip leading spaces/tabs, skip
comments and blanks, then try the accepted forms in order; a line matching
none of them is the corruption case (`strcpy(name, p); return -1`). -/
def classifyLine (l : List Char) : LineRes :=
  let p := l.dropWhile (fun c => c = ' ' ∨ c = '\t')
  if p = [] ∨ p.headD ' ' = '#' ∨ p.headD ' ' = '\n' then .skip
  else
    match formMajMin p with
    | some (id, name) => .entry id name
    | none =>
      match formHex p with
      | some (id, name) => .entry id name
      | none =>
        match formDec p with
        | some (id, name) => .entry id name
        | none => .bad p

/-- One registry entry. -/
structure Entry where
  id : Int
  name : List Char
  deriving DecidableEq, Repr

/-- The registry: fixed bucket count, chains, one-entry lookup cache. -/
structure Db where
  size : Nat
  hash : List (List Entry)
  cached : Option Entry
  deriving DecidableEq, Repr

/-- `id & (db->size - 1)` for the fixed size 256 (two's complement). -/
def idHash (id : Int) : Nat := (id % 256).toNat

/-- Prepend an entry to its bucket (lines 84-88). -/
def dbInsert (db : Db) (id : Int) (name : List Char) : Db :=
  let idx := idHash id
  { db with hash := db.hash.set idx (⟨id, name⟩ :: db.hash.getD idx []) }

/-- The load loop of `db_names_alloc` (lines 73-89) fused with
`read_id_name`: stop with the offending text on a corrupt line (the
`fprintf`/`return NULL` path), skip negative ids, insert the rest. -/
def db_load : List (List Char) → Db → Except (List Char) Db
  | [], db => .ok db
  | l :: rest, db =>
    match classifyLine l with
    | .skip => db_load rest db
    | .bad p => .error p
    | .entry id name =>
      if id < 0 then db_load rest db else db_load rest (dbInsert db id name)

/-- `db_names_alloc` (lines 51-93) on the file's lines. -/
def db_names_alloc (lines : List (List Char)) : Except (List Char) Db :=
  db_load lines { size := 256, hash := List.replicate 256 [], cached := none }

/-- `snprintf(name, ..., "%d", id)`. -/
def intDec (id : Int) : List Char := (toString id).toList

/-- `id_to_name` (lines 118-132): walk the id's chain; on a hit copy the
name and return it (non-NULL status `true`), otherwise produce the decimal
text of the id (NULL status `false`).  `IDNAME_MAX` lives in the absent
names.h; modelled from the spec: the copy returns the registered name. -/
def id_to_name (db : Db) (id : Int) : List Char × Bool :=
  match (db.hash.getD (idHash id) []).find? (fun e => e.id = id) with
  | some e => (e.name, true)
  | none => (intDec id, false)

/-- The full-table scan of `name_to_id` (lines 144-153): buckets in index
order, chains front to back. -/
def scanBuckets (db : Db) (name : List Char) : Option Entry :=
  (List.range db.size).findSome?
    (fun i => (db.hash.getD i []).find? (fun e => e.name = name))

/-- `name_to_id` (lines 134-156): consult the one-entry cache, else scan
every bucket and cache a hit. -/
def name_to_id (db : Db) (name : List Char) : Option Int × Db :=
  match db.cached with
  | some c =>
    if c.name = name then (some c.id, db)
    else
      match scanBuckets db name with
      | some e => (some e.id, { db with cached := some e })
      | none => (none, db)
  | none =>
    match scanBuckets db name with
    | some e => (some e.id, { db with cached := some e })
    | none => (none, db)

/-- All entries of the table, bucket by bucket. -/
def dbEntries (db : Db) : List Entry := db.hash.flatMap (fun b => b)

/-- A sequence of `name_to_id` calls, keeping the mutated registry. -/
def runLookups (db : Db) : List (List Char) → Db
  | [] => db
  | n :: ns => runLookups (name_to_id db n).2 ns

/-- Lines on which every accepted form fails (`read_id_name`'s `-1`). -/
def isBadLine (l : List Char) : Bool :=
  match classifyLine l with
  | .bad _ => true
  | _ => false

/-- Structural facts every loaded registry satisfies: the fixed size, the
bucket array's length, and each entry sitting in the bucket its id hashes
to. -/
def DbWF (db : Db) : Prop :=
  db.size = 256 ∧ db.hash.length = 256 ∧
    ∀ i, ∀ e ∈ db.hash.getD i [], idHash e.id = i

/-- The one-entry cache, when set, points into the hash table. -/
def CacheWF (db : Db) : Prop :=
  ∀ e, db.cached = some e → e ∈ dbEntries db

/-- Concrete registry loaded from the line `100:5 webtraffic`. -/
def dbW : Db :=
  (db_names_alloc [("100:5 webtraffic").toList]).toOption.getD ⟨0, [], none⟩

/-- Concrete registry for the lookup-cache example. -/
def dbL : Db :=
  (db_names_alloc [("100:5 webtraffic").toList, ("7 other").toList]).toOption.getD
    ⟨0, [], none⟩

end Names

namespace Flower

theorem maskBitsGo_hole (l : List Nat) : ∀ bits : Nat, bits ≠ 0 →
    maskBitsGo l bits true = if l.any (· = 1) then none else some bits := by
  induction l with
  | nil => intro bits _; simp [maskBitsGo]
  | cons b t ih =>
    intro bits hb
    by_cases h1 : b = 1
    · subst h1; simp [maskBitsGo]
    · simp only [maskBitsGo, if_neg h1, if_pos hb, ih bits hb, List.any_cons,
        decide_eq_true_eq]
      simp [h1, hb]

theorem maskBitsGo_run (l : List Nat) : ∀ bits : Nat,
    maskBitsGo l bits false =
      if (l.dropWhile (· = 1)).isEmpty then some (bits + leadOnes l)
      else if bits + leadOnes l = 0 then none
      else if (l.dropWhile (· = 1)).any (· = 1) then none
      else some (bits + leadOnes l) := by
  induction l with
  | nil => intro bits; simp [maskBitsGo, leadOnes]
  | cons b t ih =>
    intro bits
    by_cases h1 : b = 1
    · subst h1
      have hdrop : ((1 : Nat) :: t).dropWhile (· = 1) = t.dropWhile (· = 1) := by
        simp [List.dropWhile]
      have hlead : leadOnes ((1 : Nat) :: t) = leadOnes t + 1 := by
        simp [leadOnes, List.takeWhile]
      simp only [maskBitsGo, if_pos rfl, Bool.false_eq_true, if_false, ih (bits + 1),
        hdrop, hlead]
      have : bits + 1 + leadOnes t = bits + (leadOnes t + 1) := by omega
      rw [this]
      simp
    · have hdrop : (b :: t).dropWhile (· = 1) = b :: t := by
        simp [List.dropWhile, h1]
      have hlead : leadOnes (b :: t) = 0 := by
        simp [leadOnes, List.takeWhile, h1]
      by_cases hb : bits = 0
      · subst hb
        simp [maskBitsGo, h1, hdrop, hlead]
      · simp only [maskBitsGo, if_neg h1, if_pos hb, maskBitsGo_hole t bits hb,
          hdrop, hlead, Nat.add_zero, List.isEmpty_cons, if_neg hb]
        simp [h1, hb]

theorem bitsList_mem (bs : List Nat) : ∀ x ∈ bitsList bs, x = 0 ∨ x = 1 := by
  intro x hx
  simp only [bitsList, List.mem_flatMap] at hx
  obtain ⟨b, _, hb⟩ := hx
  simp only [byteBits, List.mem_cons, List.not_mem_nil, or_false] at hb
  rcases hb with h | h | h | h | h | h | h | h <;> subst h <;> omega

theorem bitsList_ne_nil {bs : List Nat} (h : bs ≠ []) : bitsList bs ≠ [] := by
  cases bs with
  | nil => exact absurd rfl h
  | cons b t => simp [bitsList, byteBits]

/-! ### Frame lemmas for the encoder -/

theorem align4_of_dvd {n : Nat} (h : 4 ∣ n) : align4 n = n := by
  unfold align4; omega

theorem dvd_align4 (n : Nat) : 4 ∣ align4 n := by
  unfold align4; omega

theorem stateExtends_refl (s : PState) : StateExtends s s :=
  ⟨rfl, [], by simp, fun h => ⟨by simp, h⟩⟩

theorem stateExtends_trans {s t u : PState} (h₁ : StateExtends s t)
    (h₂ : StateExtends t u) : StateExtends s u := by
  obtain ⟨he₁, Δ₁, ha₁, hm₁⟩ := h₁
  obtain ⟨he₂, Δ₂, ha₂, hm₂⟩ := h₂
  refine ⟨he₂.trans he₁, Δ₁ ++ Δ₂, by simp [ha₂, ha₁], ?_⟩
  intro hd
  obtain ⟨hm₁', hd₁⟩ := hm₁ hd
  obtain ⟨hm₂', hd₂⟩ := hm₂ hd₁
  constructor
  · simp [hm₂', hm₁']; omega
  · exact hd₂

theorem addattr_extends (s : PState) (ty : Nat) (pl : List Nat) :
    StateExtends s (addattr s ty pl) := by
  refine ⟨rfl, [⟨ty, pl⟩], rfl, ?_⟩
  intro hd
  constructor
  · simp [addattr, attrSize, align4_of_dvd hd]
  · exact Nat.dvd_add (dvd_align4 _) (dvd_align4 _)

theorem stateExtends_of_fields {s s' : PState} (he : s'.ethType = s.ethType)
    (ha : s'.attrs = s.attrs) (hm : s'.msgLen = s.msgLen) :
    StateExtends s s' :=
  ⟨he, [], by simp [ha], fun h => ⟨by simp [hm], hm ▸ h⟩⟩

theorem foldl_addattr_extends (l : List Rtattr) : ∀ s : PState,
    StateExtends s (l.foldl (fun s a => addattr s a.atype a.payload) s) := by
  induction l with
  | nil => intro s; exact stateExtends_refl s
  | cons a t ih =>
    intro s
    exact stateExtends_trans (addattr_extends s a.atype a.payload)
      (ih (addattr s a.atype a.payload))

theorem flower_parse_eth_addr_extends {str addr_type mask_type s s'}
    (h : flower_parse_eth_addr str addr_type mask_type s = some s') :
    StateExtends s s' := by
  unfold flower_parse_eth_addr at h
  cases str with
  | none => exact absurd h (by simp)
  | some addr =>
    simp only [Option.some.injEq] at h
    subst h
    exact stateExtends_trans (addattr_extends ..) (addattr_extends ..)

theorem flower_parse_vlan_eth_type_extends {str eth ty s s'}
    (h : flower_parse_vlan_eth_type str eth ty s = some s') :
    StateExtends s s' := by
  unfold flower_parse_vlan_eth_type at h
  split at h
  · exact absurd h (by simp)
  · cases str with
    | none => exact absurd h (by simp)
    | some v =>
      simp only [Option.some.injEq] at h
      subst h
      exact stateExtends_trans (addattr_extends ..)
        (stateExtends_of_fields rfl rfl rfl)

theorem flower_parse_ip_proto_extends {str : IpProtoArg} {eth ty : Nat}
    {s s' : PState} (h : flower_parse_ip_proto str eth ty s = some s') :
    StateExtends s s' := by
  have step : ∀ v : Nat,
      some ({ addattr s ty [v] with ipProto := v } : PState) = some s' →
      StateExtends s s' := by
    intro v hv
    simp only [Option.some.injEq] at hv
    subst hv
    exact stateExtends_trans (addattr_extends ..)
      (stateExtends_of_fields rfl rfl rfl)
  cases str with
  | tcp =>
    simp only [flower_parse_ip_proto] at h
    split at h
    · simp at h
    · exact step _ h
  | udp =>
    simp only [flower_parse_ip_proto] at h
    split at h
    · simp at h
    · exact step _ h
  | sctp =>
    simp only [flower_parse_ip_proto] at h
    split at h
    · simp at h
    · exact step _ h
  | num v =>
    cases v with
    | none =>
      simp only [flower_parse_ip_proto] at h
      split at h <;> simp at h
    | some v =>
      simp only [flower_parse_ip_proto] at h
      split at h
      · simp at h
      · by_cases hv : v < 256
        · rw [if_pos hv] at h
          exact step _ h
        · rw [if_neg hv] at h
          simp at h

theorem flower_parse_ip_addr_extends {p4 p6 : Option InetPrefix}
    {eth a4 m4 a6 m6 : Nat} {s s' : PState}
    (h : flower_parse_ip_addr p4 p6 eth a4 m4 a6 m6 s = some s') :
    StateExtends s s' := by
  have step : ∀ (t₁ t₂ : Nat) (d : List Nat) (bl bi : Nat),
      some (addattr (addattr s t₁ d) t₂ (flower_ip_mask bl bi)) = some s' →
      StateExtends s s' := by
    intro t₁ t₂ d bl bi hv
    simp only [Option.some.injEq] at hv
    subst hv
    exact stateExtends_trans (addattr_extends ..) (addattr_extends ..)
  by_cases he : eth = bswap16 ETH_P_IP
  · cases p4 with
    | none => simp [flower_parse_ip_addr, he] at h
    | some addr =>
      simp only [flower_parse_ip_addr, he, true_or, if_true, if_pos] at h
      split at h
      · simp at h
      · exact step _ _ _ _ _ h
  · by_cases he6 : eth = bswap16 ETH_P_IPV6
    · cases p6 with
      | none =>
        simp [flower_parse_ip_addr, he, he6, AF_INET, AF_INET6,
          (by decide : ¬ bswap16 ETH_P_IPV6 = bswap16 ETH_P_IP)] at h
      | some addr =>
        simp only [flower_parse_ip_addr, he, he6,
          (by decide : ¬ bswap16 ETH_P_IPV6 = bswap16 ETH_P_IP),
          AF_INET, AF_INET6, if_false, or_true, if_true, ite_true, ite_false,
          eq_self_iff_true, not_true, not_false_iff,
          (by decide : ((10 : Nat) = 2) = False)] at h
        split at h
        · simp at h
        · exact step _ _ _ _ _ h
    · simp [flower_parse_ip_addr, he, he6] at h

theorem flower_parse_port_extends {str : Option Nat} {is_src : Bool}
    {s s' : PState} (h : flower_parse_port str is_src s = some s') :
    StateExtends s s' := by
  cases str with
  | none =>
    simp only [flower_parse_port] at h
    split at h <;> simp at h
  | some p =>
    simp only [flower_parse_port] at h
    split at h
    · simp at h
    · split at h
      · simp only [Option.some.injEq] at h
        subst h
        exact addattr_extends ..
      · simp at h

theorem clauseStep_extends {s : PState} {c : Clause} {s' : PState}
    (h : clauseStep s c = some s') : StateExtends s s' := by
  cases c with
  | classid ho =>
    cases ho with
    | none => exact absurd h (by simp [clauseStep])
    | some v =>
      simp only [clauseStep, Option.some.injEq] at h
      subst h; exact addattr_extends ..
  | skip_hw =>
    simp only [clauseStep, Option.some.injEq] at h
    subst h; exact stateExtends_of_fields rfl rfl rfl
  | skip_sw =>
    simp only [clauseStep, Option.some.injEq] at h
    subst h; exact stateExtends_of_fields rfl rfl rfl
  | indev name =>
    simp only [clauseStep, Option.some.injEq] at h
    subst h; exact addattr_extends ..
  | vlan_id v =>
    cases v with
    | none =>
      simp only [clauseStep] at h
      split at h <;> simp at h
    | some vid =>
      simp only [clauseStep] at h
      split at h
      · simp at h
      · split at h
        · simp only [Option.some.injEq] at h
          subst h; exact addattr_extends ..
        · simp at h
  | vlan_prio v =>
    cases v with
    | none =>
      simp only [clauseStep] at h
      split at h <;> simp at h
    | some prio =>
      simp only [clauseStep] at h
      split at h
      · simp at h
      · split at h
        · simp only [Option.some.injEq] at h
          subst h; exact addattr_extends ..
        · simp at h
  | vlan_ethtype v => exact flower_parse_vlan_eth_type_extends h
  | dst_mac a => exact flower_parse_eth_addr_extends h
  | src_mac a => exact flower_parse_eth_addr_extends h
  | ip_proto a => exact flower_parse_ip_proto_extends h
  | dst_ip p4 p6 => exact flower_parse_ip_addr_extends h
  | src_ip p4 p6 => exact flower_parse_ip_addr_extends h
  | dst_port p => exact flower_parse_port_extends h
  | src_port p => exact flower_parse_port_extends h
  | action blob =>
    cases blob with
    | none => exact absurd h (by simp [clauseStep])
    | some attrs =>
      simp only [clauseStep, Option.some.injEq] at h
      subst h; exact foldl_addattr_extends attrs s
  | help => exact absurd h (by simp [clauseStep])

theorem runClauses_extends : ∀ (cs : List Clause) (s s' : PState),
    runClauses s cs = some s' → StateExtends s s' := by
  intro cs
  induction cs with
  | nil =>
    intro s s' h
    simp only [runClauses, Option.some.injEq] at h
    subst h; exact stateExtends_refl s
  | cons c t ih =>
    intro s s' h
    simp only [runClauses] at h
    cases hc : clauseStep s c with
    | none => rw [hc] at h; exact absurd h (by simp)
    | some s₁ =>
      rw [hc] at h
      exact stateExtends_trans (clauseStep_extends hc) (ih s₁ s' h)

theorem runClauses_append (cs₁ cs₂ : List Clause) : ∀ s : PState,
    runClauses s (cs₁ ++ cs₂) =
      match runClauses s cs₁ with
      | none => none
      | some s' => runClauses s' cs₂ := by
  induction cs₁ with
  | nil => intro s; simp [runClauses]
  | cons c t ih =>
    intro s
    simp only [List.cons_append, runClauses]
    cases hc : clauseStep s c with
    | none => simp
    | some s₁ => simpa using ih s₁

theorem parse_opt_of_step_none {eth0 len0 : Nat} {cs₁ : List Clause}
    {s : PState} (h : runClauses (initPState eth0 len0) cs₁ = some s)
    {c : Clause} (hc : clauseStep s c = none) (cs₂ : List Clause) :
    flower_parse_opt eth0 len0 (cs₁ ++ c :: cs₂) = none := by
  simp only [flower_parse_opt]
  rw [runClauses_append, h]
  simp only [runClauses, hc]

theorem vlan_gate_step {s : PState} (hne : s.ethType ≠ bswap16 ETH_P_8021Q) :
    ∀ c, isVlanClause c = true → clauseStep s c = none := by
  intro c hc
  cases c <;> simp [isVlanClause] at hc
  · simp only [clauseStep]
    rw [if_pos hne]
  · simp only [clauseStep]
    rw [if_pos hne]
  · simp only [clauseStep, flower_parse_vlan_eth_type]
    rw [if_pos hne]

theorem ip_gate_step {s : PState} (h1 : effEth s ≠ bswap16 ETH_P_IP)
    (h2 : effEth s ≠ bswap16 ETH_P_IPV6) :
    ∀ c, isIpGatedClause c = true → clauseStep s c = none := by
  intro c hc
  cases c <;> simp [isIpGatedClause] at hc
  · simp only [clauseStep, flower_parse_ip_proto]
    rw [if_pos ⟨h1, h2⟩]
  · simp only [clauseStep, flower_parse_ip_addr]
    rw [if_neg (by rintro (h | h); exacts [h1 h, h2 h])]
  · simp only [clauseStep, flower_parse_ip_addr]
    rw [if_neg (by rintro (h | h); exacts [h1 h, h2 h])]

theorem port_attr_type_unknown {p : Nat} (h1 : p ≠ IPPROTO_TCP)
    (h2 : p ≠ IPPROTO_UDP) (h3 : p ≠ IPPROTO_SCTP) (d : Bool) :
    flower_port_attr_type p d = -1 := by
  simp [flower_port_attr_type, h1, h2, h3]

theorem port_gate_step {s : PState} (h1 : s.ipProto ≠ IPPROTO_TCP)
    (h2 : s.ipProto ≠ IPPROTO_UDP) (h3 : s.ipProto ≠ IPPROTO_SCTP) :
    ∀ c, isPortClause c = true → clauseStep s c = none := by
  intro c hc
  cases c <;> simp [isPortClause] at hc
  · simp only [clauseStep, flower_parse_port,
      port_attr_type_unknown h1 h2 h3]
    rw [if_pos (by decide : (-1 : Int) < 0)]
  · simp only [clauseStep, flower_parse_port,
      port_attr_type_unknown h1 h2 h3]
    rw [if_pos (by decide : (-1 : Int) < 0)]

theorem addattr_msgLen_of_dvd {s : PState} (hd : 4 ∣ s.msgLen)
    (ty : Nat) (pl : List Nat) :
    (addattr s ty pl).msgLen = s.msgLen + attrSize ⟨ty, pl⟩ ∧
    4 ∣ (addattr s ty pl).msgLen := by
  constructor
  · simp [addattr, attrSize, align4_of_dvd hd]
  · exact Nat.dvd_add (dvd_align4 _) (dvd_align4 _)

end Flower

/-- C2 (counterexample): the claim demands that the all-zero mask be treated
as contiguous with bit count 0, but `__mask_bits` on the one-byte all-zero
mask returns the non-contiguous sentinel `-1`, not `0`. -/
theorem C2_counterexample_all_zero_mask :
    Flower.mask_bits [0] = -1 ∧ Flower.mask_bits [0] ≠ 0 := by decide

/-- C2 (amended): `__mask_bits` returns the exact count of leading one-bits
whenever the mask's one-bits form a single unbroken leading run that is
nonempty (and 0 for the empty mask), and returns the sentinel `-1` exactly
when a one-bit follows a zero-bit in the MSB-first scan or when the mask is
nonempty and all-zero (the all-zero mask yields the sentinel, not 0). -/
theorem C2_mask_bits_characterization (bs : List Nat) :
    Flower.mask_bits bs =
      if Flower.hasOneAfterZero (Flower.bitsList bs) = true ∨
          (bs ≠ [] ∧ (Flower.bitsList bs).all (· = 0) = true)
      then -1 else (Flower.leadOnes (Flower.bitsList bs) : Int) := by
  classical
  set β := Flower.bitsList bs with hβ
  have hmem : ∀ x ∈ β, x = 0 ∨ x = 1 := Flower.bitsList_mem bs
  unfold Flower.mask_bits
  rw [← hβ, Flower.maskBitsGo_run β 0]
  by_cases h₁ : (β.dropWhile (· = 1)).isEmpty
  · -- all bits are one (or the list is empty): result is the full count
    have hall : ∀ x ∈ β, x = 1 := by
      intro x hx
      have := (List.dropWhile_eq_nil_iff).mp (List.isEmpty_iff.mp h₁) x hx
      simpa using this
    have hoz : Flower.hasOneAfterZero β = false := by
      simp only [Flower.hasOneAfterZero, List.isEmpty_iff.mp h₁, List.any_nil]
    rw [if_pos h₁]
    by_cases hbs : bs = []
    · subst hbs
      simp [Flower.hasOneAfterZero, Flower.bitsList, Flower.leadOnes] at hβ ⊢
      simp [hβ]
    · have hβne : β ≠ [] := hβ ▸ Flower.bitsList_ne_nil hbs
      obtain ⟨y, ys, hy⟩ := List.exists_cons_of_ne_nil hβne
      have hy1 : y = 1 := hall y (by rw [hy]; exact List.mem_cons_self y ys)
      have hnall : ¬ (β.all (· = 0) = true) := by
        rw [hy]
        simp [hy1]
      rw [if_neg (by simp [hoz, hnall, hbs])]
      simp
  · rw [if_neg h₁]
    have hrest : β.dropWhile (· = 1) ≠ [] := by
      intro h; rw [h] at h₁; exact h₁ rfl
    have hβne : β ≠ [] := by
      intro h; rw [h] at hrest; exact hrest (by simp [List.dropWhile])
    have hbs : bs ≠ [] := by
      intro h; apply hβne; rw [hβ, h]; rfl
    by_cases h₂ : 0 + Flower.leadOnes β = 0
    · -- no leading one-bit: the C returns -1 immediately
      rw [if_pos h₂]
      have htw : β.takeWhile (· = 1) = [] := by
        have : (β.takeWhile (· = 1)).length = 0 := by
          have := h₂; simpa [Flower.leadOnes] using this
        exact List.eq_nil_of_length_eq_zero this
      have hdw : β.dropWhile (· = 1) = β := by
        have := List.takeWhile_append_dropWhile (fun x => decide (x = 1)) β
        rw [htw] at this; simpa using this
      by_cases hany : β.any (· = 1)
      · have : Flower.hasOneAfterZero β = true := by
          simp only [Flower.hasOneAfterZero, hdw]; exact hany
        rw [if_pos (Or.inl this)]
      · have : β.all (· = 0) = true := by
          simp only [List.all_eq_true]
          intro x hx
          rcases hmem x hx with h0 | h0
          · simp [h0]
          · exfalso; apply hany
            simp only [List.any_eq_true]
            exact ⟨x, hx, by simp [h0]⟩
        rw [if_pos (Or.inr ⟨hbs, this⟩)]
    · rw [if_neg h₂]
      by_cases h₃ : (β.dropWhile (· = 1)).any (· = 1)
      · rw [if_pos h₃]
        have : Flower.hasOneAfterZero β = true := h₃
        rw [if_pos (Or.inl this)]
      · rw [if_neg h₃]
        have hoz : ¬ (Flower.hasOneAfterZero β = true) := h₃
        have hnall : ¬ (β.all (· = 0) = true) := by
          have hlen : (β.takeWhile (· = 1)).length ≠ 0 := by
            intro h; exact h₂ (by simpa [Flower.leadOnes] using h)
          intro hall
          have htne : β.takeWhile (· = 1) ≠ [] := by
            intro h; exact hlen (by rw [h]; rfl)
          obtain ⟨y, ys, hy⟩ := List.exists_cons_of_ne_nil htne
          have hymemt : y ∈ β.takeWhile (· = 1) := by
            rw [hy]; exact List.mem_cons_self y ys
          have hy1 : y = 1 := by simpa using List.mem_takeWhile_imp hymemt
          have hymem : y ∈ β := by
            have hsplit := List.takeWhile_append_dropWhile (fun x => decide (x = 1)) β
            rw [← hsplit]
            exact List.mem_append_left _ hymemt
          have h0 := (List.all_eq_true).mp hall y hymem
          simp at h0
          omega
        rw [if_neg (by simp [hoz, hnall, hbs])]
        simp


namespace Flower

theorem parse_opt_some_shape {eth0 len0 : Nat} {cs : List Clause}
    {s : PState} {optLen : Nat}
    (h : flower_parse_opt eth0 len0 cs = some (s, optLen)) :
    ∃ s₁, runClauses (initPState eth0 len0) cs = some s₁ ∧
      s = addattr (addattr s₁ TCA_FLOWER_FLAGS (le32 s₁.flags))
        TCA_FLOWER_KEY_ETH_TYPE (le16 s₁.ethType) ∧
      optLen = s.msgLen - align4 len0 := by
  simp only [flower_parse_opt] at h
  cases hr : runClauses (initPState eth0 len0) cs with
  | none => rw [hr] at h; simp at h
  | some s₁ =>
    rw [hr] at h
    simp only [Option.some.injEq, Prod.mk.injEq] at h
    exact ⟨s₁, rfl, h.1.symm, by rw [← h.1]; exact h.2.symm⟩

end Flower

open Flower in
/-- C9: on every successful encode — including the zero-clause case, which
is a legal rule — the encoder, after the clause loop, emits the flags word,
then the outer ethertype attribute carrying the ethertype in scope, as the
last two attributes, and finalizes the options container's `rta_len` to
span everything written since the container was opened (its own 4-byte
header plus the aligned size of every attribute emitted). -/
theorem C9_post_loop_emission (eth0 len0 : Nat) (cs : List Clause)
    (s : PState) (optLen : Nat)
    (h : flower_parse_opt eth0 len0 cs = some (s, optLen)) :
    (∃ body fl, s.attrs = body ++
      [⟨TCA_FLOWER_FLAGS, le32 fl⟩, ⟨TCA_FLOWER_KEY_ETH_TYPE, le16 eth0⟩]) ∧
    optLen = 4 + (s.attrs.map attrSize).sum ∧
    (flower_parse_opt eth0 len0 []).isSome = true := by
  have hzero : (flower_parse_opt eth0 len0 []).isSome = true := by
    simp [flower_parse_opt, runClauses]
  obtain ⟨s₁, hr, hs, hlen⟩ := parse_opt_some_shape h
  obtain ⟨heth, Δ, hattrs, hmsg⟩ := runClauses_extends cs _ s₁ hr
  have heth' : s₁.ethType = eth0 := heth
  have hΔ : s₁.attrs = Δ := by simpa using hattrs
  have hd0 : 4 ∣ (initPState eth0 len0).msgLen := by
    show 4 ∣ align4 len0 + 4
    exact Nat.dvd_add (dvd_align4 _) ⟨1, rfl⟩
  obtain ⟨hm₁, hd₁⟩ := hmsg hd0
  have hA := addattr_msgLen_of_dvd hd₁ TCA_FLOWER_FLAGS (le32 s₁.flags)
  have hB := addattr_msgLen_of_dvd hA.2 TCA_FLOWER_KEY_ETH_TYPE (le16 s₁.ethType)
  have hinit : (initPState eth0 len0).msgLen = align4 len0 + 4 := rfl
  refine ⟨⟨s₁.attrs, s₁.flags, ?_⟩, ?_, hzero⟩
  · rw [hs]
    simp [addattr, heth']
  · have hsattrs : s.attrs = s₁.attrs ++
        [⟨TCA_FLOWER_FLAGS, le32 s₁.flags⟩,
         ⟨TCA_FLOWER_KEY_ETH_TYPE, le16 s₁.ethType⟩] := by
      rw [hs]; simp [addattr]
    have hsum : (s.attrs.map attrSize).sum = (s₁.attrs.map attrSize).sum +
        attrSize ⟨TCA_FLOWER_FLAGS, le32 s₁.flags⟩ +
        attrSize ⟨TCA_FLOWER_KEY_ETH_TYPE, le16 s₁.ethType⟩ := by
      rw [hsattrs]; simp; omega
    have hsm : s.msgLen = s₁.msgLen +
        attrSize ⟨TCA_FLOWER_FLAGS, le32 s₁.flags⟩ +
        attrSize ⟨TCA_FLOWER_KEY_ETH_TYPE, le16 s₁.ethType⟩ := by
      rw [hs]
      rw [hB.1, hA.1]
    rw [← hΔ] at hm₁
    rw [hinit] at hm₁
    omega

open Flower in
/-- C9 witness: encoding zero clauses under the IPv4 ethertype succeeds and
the emitted attributes are exactly the flags word and the outer ethertype,
with the finalized container length spanning both. -/
theorem C9_witness :
    (∃ body fl,
      ([⟨TCA_FLOWER_FLAGS, le32 0⟩,
        ⟨TCA_FLOWER_KEY_ETH_TYPE, le16 (bswap16 ETH_P_IP)⟩] : List Rtattr) =
        body ++ [⟨TCA_FLOWER_FLAGS, le32 fl⟩,
          ⟨TCA_FLOWER_KEY_ETH_TYPE, le16 (bswap16 ETH_P_IP)⟩]) ∧
    (20 : Nat) = 4 + ((([⟨TCA_FLOWER_FLAGS, le32 0⟩,
      ⟨TCA_FLOWER_KEY_ETH_TYPE, le16 (bswap16 ETH_P_IP)⟩] : List Rtattr)).map
        attrSize).sum ∧
    (flower_parse_opt (bswap16 ETH_P_IP) 16 []).isSome = true :=
  C9_post_loop_emission (bswap16 ETH_P_IP) 16 []
    ⟨bswap16 ETH_P_IP, 0, 0xff, 0, 36,
      [⟨TCA_FLOWER_FLAGS, le32 0⟩,
       ⟨TCA_FLOWER_KEY_ETH_TYPE, le16 (bswap16 ETH_P_IP)⟩]⟩ 20 (by decide)

open Flower in
/-- C5: in any clause sequence, once the loop has reached state `s`,
a following `vlan_id`/`vlan_prio`/`vlan_ethtype` clause makes the whole
parse fail whenever the outer ethertype is not 802.1Q; a following
`ip_proto`/`dst_ip`/`src_ip` clause makes it fail whenever the effective
ethertype (VLAN-inner if set, else outer) is neither IPv4 nor IPv6; and a
following `dst_port`/`src_port` clause makes it fail whenever the effective
transport protocol is none of TCP/UDP/SCTP. -/
theorem C5_dependency_gating (eth0 len0 : Nat) (cs₁ cs₂ : List Clause)
    (s : PState) (h : runClauses (initPState eth0 len0) cs₁ = some s) :
    (∀ c, isVlanClause c = true → s.ethType ≠ bswap16 ETH_P_8021Q →
      flower_parse_opt eth0 len0 (cs₁ ++ c :: cs₂) = none) ∧
    (∀ c, isIpGatedClause c = true → effEth s ≠ bswap16 ETH_P_IP →
      effEth s ≠ bswap16 ETH_P_IPV6 →
      flower_parse_opt eth0 len0 (cs₁ ++ c :: cs₂) = none) ∧
    (∀ c, isPortClause c = true → s.ipProto ≠ IPPROTO_TCP →
      s.ipProto ≠ IPPROTO_UDP → s.ipProto ≠ IPPROTO_SCTP →
      flower_parse_opt eth0 len0 (cs₁ ++ c :: cs₂) = none) := by
  refine ⟨?_, ?_, ?_⟩
  · intro c hc hne
    exact parse_opt_of_step_none h (vlan_gate_step hne c hc) cs₂
  · intro c hc h1 h2
    exact parse_opt_of_step_none h (ip_gate_step h1 h2 c hc) cs₂
  · intro c hc h1 h2 h3
    exact parse_opt_of_step_none h (port_gate_step h1 h2 h3 c hc) cs₂

open Flower in
/-- C5 witness: `vlan_id` under IPv4, `ip_proto` under 802.1Q without a VLAN
ethertype, and `dst_port` without any `ip_proto` all fail. -/
theorem C5_witness :
    flower_parse_opt (bswap16 ETH_P_IP) 16 [Clause.vlan_id (some 5)] = none ∧
    flower_parse_opt (bswap16 ETH_P_8021Q) 16 [Clause.ip_proto .tcp] = none ∧
    flower_parse_opt (bswap16 ETH_P_IP) 16 [Clause.dst_port (some 80)] = none := by
  have h4 := C5_dependency_gating (bswap16 ETH_P_IP) 16 [] [] _ rfl
  have hq := C5_dependency_gating (bswap16 ETH_P_8021Q) 16 [] [] _ rfl
  exact ⟨h4.1 _ (by decide) (by decide),
    hq.2.1 _ (by decide) (by decide) (by decide),
    h4.2.2 _ (by decide) (by decide) (by decide) (by decide)⟩

open Flower in
/-- C3 counterexample: the identifiers selected for TCP/UDP/SCTP in the two
directions number exactly 6 — the table cannot consist of "8 distinct
identifiers covering TCP/UDP/SCTP dst/src ports" as the claim states. -/
theorem C3_counterexample_six_identifiers :
    (([IPPROTO_TCP, IPPROTO_UDP, IPPROTO_SCTP].flatMap (fun p =>
      [flower_port_attr_type p false,
       flower_port_attr_type p true])).dedup.length = 6) ∧
    (([IPPROTO_TCP, IPPROTO_UDP, IPPROTO_SCTP].flatMap (fun p =>
      [flower_port_attr_type p false,
       flower_port_attr_type p true])).dedup.length ≠ 8) := by decide

open Flower in
/-- C3 (amended): the port attribute identifier is selected from the
effective transport protocol and the direction over a table of three
protocols × two directions — 6 distinct identifiers covering TCP/UDP/SCTP
dst/src — and an unrecognized protocol is a hard error (`-1`), never a
silent skip; `ip_proto tcp` then `dst_port 80` under outer ethertype IPv4
emits the TCP-destination identifier carrying 80 in network order, and
`dst_port 80` with no prior `ip_proto` fails. -/
theorem C3_port_attr_selection :
    (flower_port_attr_type IPPROTO_TCP false = TCA_FLOWER_KEY_TCP_DST ∧
     flower_port_attr_type IPPROTO_TCP true = TCA_FLOWER_KEY_TCP_SRC ∧
     flower_port_attr_type IPPROTO_UDP false = TCA_FLOWER_KEY_UDP_DST ∧
     flower_port_attr_type IPPROTO_UDP true = TCA_FLOWER_KEY_UDP_SRC ∧
     flower_port_attr_type IPPROTO_SCTP false = TCA_FLOWER_KEY_SCTP_DST ∧
     flower_port_attr_type IPPROTO_SCTP true = TCA_FLOWER_KEY_SCTP_SRC) ∧
    ([(TCA_FLOWER_KEY_TCP_DST : Int), TCA_FLOWER_KEY_TCP_SRC,
      TCA_FLOWER_KEY_UDP_DST, TCA_FLOWER_KEY_UDP_SRC,
      TCA_FLOWER_KEY_SCTP_DST, TCA_FLOWER_KEY_SCTP_SRC]).Nodup ∧
    (∀ p : Nat, p ≠ IPPROTO_TCP → p ≠ IPPROTO_UDP → p ≠ IPPROTO_SCTP →
      ∀ d : Bool, flower_port_attr_type p d = -1) ∧
    ((flower_parse_opt (bswap16 ETH_P_IP) 16
        [Clause.ip_proto .tcp, Clause.dst_port (some 80)]).map
          (fun r => r.1.attrs) =
      some [⟨TCA_FLOWER_KEY_IP_PROTO, [IPPROTO_TCP]⟩,
            ⟨TCA_FLOWER_KEY_TCP_DST, le16 (bswap16 80)⟩,
            ⟨TCA_FLOWER_FLAGS, le32 0⟩,
            ⟨TCA_FLOWER_KEY_ETH_TYPE, le16 (bswap16 ETH_P_IP)⟩]) ∧
    rta_getattr_be16 (le16 (bswap16 80)) = 80 ∧
    flower_parse_opt (bswap16 ETH_P_IP) 16 [Clause.dst_port (some 80)] = none := by
  refine ⟨by decide, by decide, ?_, by decide, by decide, by decide⟩
  exact fun p h1 h2 h3 d => port_attr_type_unknown h1 h2 h3 d

open Flower in
/-- C3 witness: the unknown-protocol hard error at a concrete protocol. -/
theorem C3_witness :
    flower_port_attr_type 0xff false = -1 ∧
    flower_port_attr_type 0xff true = -1 :=
  ⟨C3_port_attr_selection.2.2.1 0xff (by decide) (by decide) (by decide) false,
   C3_port_attr_selection.2.2.1 0xff (by decide) (by decide) (by decide) true⟩

open Flower in
/-- C4: for both address widths (4 bytes and 16 bytes) and every prefix
length up to the full width, the mask the encoder synthesizes for
`dst_ip`/`src_ip` agrees with the spec construction — per 4-byte group,
all-ones when fully covered, all-zero when fully beyond, and the
network-order bytes of `0xFFFFFFFF << (32 - p mod 32)` at the boundary —
including the two boundary cases `p = 0` (all-zero) and `p = 8b`
(all-ones). -/
theorem C4_prefix_to_mask :
    (∀ p, p ≤ 32 → flower_ip_mask 4 p = specIpMask 4 p) ∧
    (∀ p, p ≤ 128 → flower_ip_mask 16 p = specIpMask 16 p) ∧
    flower_ip_mask 4 0 = List.replicate 4 0 ∧
    flower_ip_mask 4 32 = List.replicate 4 0xff ∧
    flower_ip_mask 16 0 = List.replicate 16 0 ∧
    flower_ip_mask 16 128 = List.replicate 16 0xff := by
  refine ⟨by decide, by decide, by decide, by decide, by decide, by decide⟩

open Flower in
/-- C4 witness: the agreement at the concrete prefixes 24 (IPv4) and 33
(IPv6). -/
theorem C4_witness :
    flower_ip_mask 4 24 = specIpMask 4 24 ∧
    flower_ip_mask 16 33 = specIpMask 16 33 :=
  ⟨C4_prefix_to_mask.1 24 (by decide), C4_prefix_to_mask.2.1 33 (by decide)⟩

open Flower in
/-- C6: every successfully encoded `dst_mac`/`src_mac` clause emits the
address attribute followed by a mask attribute that is unconditionally
all-ones over the 6-byte MAC length, and decoding an address with such an
all-ones mask prints the address with no mask suffix. -/
theorem C6_mac_exact_match :
    (∀ (s : PState) (a : List Nat) (s' : PState),
      clauseStep s (Clause.dst_mac (some a)) = some s' →
      s'.attrs = s.attrs ++ [⟨TCA_FLOWER_KEY_ETH_DST, a⟩,
        ⟨TCA_FLOWER_KEY_ETH_DST_MASK, List.replicate ETH_ALEN 0xff⟩]) ∧
    (∀ (s : PState) (a : List Nat) (s' : PState),
      clauseStep s (Clause.src_mac (some a)) = some s' →
      s'.attrs = s.attrs ++ [⟨TCA_FLOWER_KEY_ETH_SRC, a⟩,
        ⟨TCA_FLOWER_KEY_ETH_SRC_MASK, List.replicate ETH_ALEN 0xff⟩]) ∧
    (∀ (dir : FieldDir) (t₁ t₂ : Nat) (addr : List Nat),
      addr.length = ETH_ALEN →
      flower_print_eth_addr dir (some ⟨t₁, addr⟩)
        (some ⟨t₂, List.replicate ETH_ALEN 0xff⟩) =
        [OutItem.eth_addr dir addr none]) := by
  refine ⟨?_, ?_, ?_⟩
  · intro s a s' h
    simp only [clauseStep, flower_parse_eth_addr, Option.some.injEq] at h
    subst h
    simp [addattr]
  · intro s a s' h
    simp only [clauseStep, flower_parse_eth_addr, Option.some.injEq] at h
    subst h
    simp [addattr]
  · intro dir t₁ t₂ addr hlen
    simp only [flower_print_eth_addr]
    rw [if_neg (by simp [hlen])]
    simp [show mask_bits (List.replicate ETH_ALEN 0xff) = 48 from by decide,
      show mask_bits [255, 255, 255, 255, 255, 255] = 48 from by decide,
      ETH_ALEN]

open Flower in
/-- C6 witness: the MAC `aa:bb:cc:dd:ee:ff` — the encoder emits the
all-ones 6-byte mask and the decoder prints it with no suffix. -/
theorem C6_witness :
    flower_print_eth_addr .dst
      (some ⟨TCA_FLOWER_KEY_ETH_DST, [0xaa, 0xbb, 0xcc, 0xdd, 0xee, 0xff]⟩)
      (some ⟨TCA_FLOWER_KEY_ETH_DST_MASK, List.replicate ETH_ALEN 0xff⟩) =
      [OutItem.eth_addr .dst [0xaa, 0xbb, 0xcc, 0xdd, 0xee, 0xff] none] ∧
    (clauseStep (initPState (bswap16 ETH_P_IP) 16)
      (Clause.dst_mac (some [0xaa, 0xbb, 0xcc, 0xdd, 0xee, 0xff]))).map
        PState.attrs =
      some [⟨TCA_FLOWER_KEY_ETH_DST, [0xaa, 0xbb, 0xcc, 0xdd, 0xee, 0xff]⟩,
            ⟨TCA_FLOWER_KEY_ETH_DST_MASK, List.replicate ETH_ALEN 0xff⟩] :=
  ⟨C6_mac_exact_match.2.2 .dst TCA_FLOWER_KEY_ETH_DST
    TCA_FLOWER_KEY_ETH_DST_MASK [0xaa, 0xbb, 0xcc, 0xdd, 0xee, 0xff]
    (by decide), by decide⟩

open Flower in
/-- C1 (code evaluation at the failing inputs): decoding an attribute table
with no attributes reads `tb[-1]` (out of bounds) because the transport
protocol defaults to the lookup failure sentinel, and decoding a table with
`ip_proto` TCP but no port attribute passes NULL to `rta_getattr_be16`;
both are modelled as errors — the decoder does not run to completion, so it
is not the case that missing port attributes are silently omitted. -/
theorem C1_decoder_crash :
    flower_print_opt 0 (fun _ => none) = .error () ∧
    flower_print_opt 0 (fun i =>
      if i = TCA_FLOWER_KEY_IP_PROTO then
        some ⟨TCA_FLOWER_KEY_IP_PROTO, [IPPROTO_TCP]⟩
      else none) = .error () :=
  ⟨rfl, rfl⟩

namespace Names

theorem idHash_lt (id : Int) : idHash id < 256 := by
  unfold idHash
  omega

theorem getD_set_ne {α : Type} (l : List α) {i j : Nat} (a d : α)
    (hne : i ≠ j) : (l.set i a).getD j d = l.getD j d := by
  simp [List.getD, List.getElem?_set_ne hne]

theorem getD_set_eq {α : Type} (l : List α) {i : Nat} (a d : α)
    (h : i < l.length) : (l.set i a).getD i d = a := by
  simp [List.getD, List.getElem?_set_self, h]

theorem dbInsert_wf {db : Db} (h : DbWF db) (id : Int) (name : List Char) :
    DbWF (dbInsert db id name) := by
  obtain ⟨hsize, hlen, hbuck⟩ := h
  refine ⟨hsize, by simp [dbInsert, hlen], ?_⟩
  intro i e he
  by_cases hi : idHash id = i
  · subst hi
    rw [dbInsert, getD_set_eq _ _ _ (by rw [hlen]; exact idHash_lt id)] at he
    cases he with
    | head => rfl
    | tail _ hmem => exact hbuck _ e hmem
  · rw [dbInsert, getD_set_ne _ _ _ hi] at he
    exact hbuck i e he

theorem dbInsert_cached (db : Db) (id : Int) (name : List Char) :
    (dbInsert db id name).cached = db.cached := rfl

theorem db_load_wf : ∀ (lines : List (List Char)) (db db' : Db),
    DbWF db → db_load lines db = .ok db' →
    DbWF db' ∧ db'.cached = db.cached := by
  intro lines
  induction lines with
  | nil =>
    intro db db' hwf h
    simp only [db_load, Except.ok.injEq] at h
    subst h
    exact ⟨hwf, rfl⟩
  | cons a t ih =>
    intro db db' hwf h
    cases hc : classifyLine a with
    | skip =>
      simp only [db_load, hc] at h
      exact ih db db' hwf h
    | bad p =>
      simp only [db_load, hc] at h
      simp at h
    | entry id name =>
      simp only [db_load, hc] at h
      by_cases hid : id < 0
      · rw [if_pos hid] at h
        exact ih db db' hwf h
      · rw [if_neg hid] at h
        obtain ⟨hwf', hc'⟩ := ih _ db' (dbInsert_wf hwf id name) h
        exact ⟨hwf', hc'.trans (dbInsert_cached db id name)⟩

theorem db_names_alloc_wf {lines : List (List Char)} {db : Db}
    (h : db_names_alloc lines = .ok db) : DbWF db ∧ db.cached = none := by
  have hinit : DbWF ⟨256, List.replicate 256 [], none⟩ := by
    refine ⟨rfl, List.length_replicate 256 [], ?_⟩
    intro i e he
    by_cases hi : i < 256
    · rw [List.getD_eq_getElem _ _
        (by rw [List.length_replicate]; exact hi)] at he
      rw [List.getElem_replicate] at he
      exact (List.not_mem_nil e he).elim
    · rw [List.getD_eq_default _ _
        (by rw [List.length_replicate]; omega)] at he
      exact (List.not_mem_nil e he).elim
  exact db_load_wf lines _ db hinit h

theorem find?_flatMap_single (p : Entry → Bool) :
    ∀ (l : List (List Entry)) (i : Nat), i < l.length →
    (∀ j, ∀ e ∈ l.getD j [], p e = true → j = i) →
    (l.flatMap (fun b => b)).find? p = (l.getD i []).find? p := by
  intro l
  induction l with
  | nil => intro i hi _; simp at hi
  | cons b t ih =>
    intro i hi hj
    cases i with
    | zero =>
      have ht : (t.flatMap (fun b => b)).find? p = none := by
        rw [List.find?_eq_none]
        intro e he hp
        obtain ⟨bj, hbj, hebj⟩ := List.mem_flatMap.mp he
        obtain ⟨j, hjlt, hjeq⟩ := List.mem_iff_getElem.mp hbj
        have : j + 1 = 0 := by
          refine hj (j + 1) e ?_ hp
          show e ∈ t.getD j []
          rw [List.getD_eq_getElem _ _ hjlt, hjeq]
          exact hebj
        omega
      show ((b ++ t.flatMap (fun b => b)).find? p) = b.find? p
      rw [List.find?_append, ht]
      cases b.find? p <;> rfl
    | succ j =>
      have hb : b.find? p = none := by
        rw [List.find?_eq_none]
        intro e he hp
        have : (0 : Nat) = j + 1 := hj 0 e he hp
        omega
      show ((b ++ t.flatMap (fun b => b)).find? p) = ((t.getD j []).find? p)
      rw [List.find?_append, hb]
      have := ih j (by simpa using hi) (fun j' e he hp => by
        have : j' + 1 = j + 1 := hj (j' + 1) e he hp
        omega)
      simpa using this

end Names

open Names in
/-- C7: on every loaded registry, `id_to_name` behaves exactly as reference
lookup over all stored entries: if an entry with the id was loaded it
returns that entry's registered name with the found status, otherwise the
decimal textual form of the id with the not-found status — the two outcomes
distinguishable by the status component. -/
theorem C7_id_to_name (lines : List (List Char)) (db : Db)
    (h : db_names_alloc lines = .ok db) (id : Int) :
    id_to_name db id =
      match (dbEntries db).find? (fun e => e.id = id) with
      | some e => (e.name, true)
      | none => (intDec id, false) := by
  obtain ⟨⟨hsize, hlen, hbuck⟩, _⟩ := db_names_alloc_wf h
  have hfind : (dbEntries db).find? (fun e => e.id = id) =
      (db.hash.getD (idHash id) []).find? (fun e => e.id = id) := by
    apply find?_flatMap_single _ _ (idHash id) (by rw [hlen]; exact idHash_lt id)
    intro j e he hp
    have hej := hbuck j e he
    have : e.id = id := by simpa using hp
    rw [← hej, this]
  rw [hfind]
  rfl

open Names in
/-- C7 witness: loading `100:5 webtraffic` and looking up id 0x1000005
(= 16777221) returns the registered name with the found status; the
unregistered id 7 yields its decimal text with the not-found status. -/
theorem C7_witness :
    id_to_name dbW 16777221 =
      (match (dbEntries dbW).find? (fun e => e.id = 16777221) with
       | some e => (e.name, true)
       | none => (intDec 16777221, false)) ∧
    id_to_name dbW 16777221 = (("webtraffic").toList, true) ∧
    id_to_name dbW 7 = (("7").toList, false) :=
  ⟨C7_id_to_name [("100:5 webtraffic").toList] dbW rfl 16777221,
   by decide, by decide⟩

namespace Names

theorem classifyLine_bad : ∀ {l t : List Char}, classifyLine l = .bad t →
    t = l.dropWhile (fun c => c = ' ' ∨ c = '\t') := by
  intro l t h
  simp only [classifyLine] at h
  split at h
  · simp at h
  · split at h
    · simp at h
    · split at h
      · simp at h
      · split at h
        · simp at h
        · injection h with h
          exact h.symm

theorem db_load_first_bad : ∀ (lines : List (List Char)) (db : Db)
    (l : List Char), lines.find? isBadLine = some l →
    db_load lines db = .error (l.dropWhile (fun c => c = ' ' ∨ c = '\t')) := by
  intro lines
  induction lines with
  | nil => intro db l h; simp at h
  | cons a t ih =>
    intro db l h
    by_cases hb : isBadLine a = true
    · rw [List.find?_cons_of_pos t hb] at h
      simp only [Option.some.injEq] at h
      subst h
      unfold isBadLine at hb
      cases hc : classifyLine a with
      | skip => rw [hc] at hb; simp at hb
      | entry id name => rw [hc] at hb; simp at hb
      | bad p =>
        simp only [db_load, hc]
        rw [classifyLine_bad hc]
    · rw [List.find?_cons_of_neg t hb] at h
      cases hc : classifyLine a with
      | bad p => exact absurd (by simp [isBadLine, hc]) hb
      | skip =>
        simp only [db_load, hc]
        exact ih db l h
      | entry id name =>
        simp only [db_load, hc]
        by_cases hid : id < 0
        · rw [if_pos hid]; exact ih db l h
        · rw [if_neg hid]; exact ih _ l h

end Names

open Names in
/-- C8: whenever some line of the registry file matches none of the
accepted textual forms, loading fails entirely with a corruption error
carrying the (whitespace-stripped) text of the first such line, and no
registry value is produced. -/
theorem C8_corrupt_line_fatal (lines : List (List Char)) (l : List Char)
    (h : lines.find? isBadLine = some l) :
    db_names_alloc lines =
      .error (l.dropWhile (fun c => c = ' ' ∨ c = '\t')) ∧
    ∀ db, db_names_alloc lines ≠ .ok db := by
  have he := db_load_first_bad lines ⟨256, List.replicate 256 [], none⟩ l h
  refine ⟨he, ?_⟩
  intro db hdb
  unfold db_names_alloc at hdb
  rw [he] at hdb
  simp at hdb

open Names in
/-- C8 witness: a good line followed by the unparsable line `?` makes the
load fail with the corruption error naming that line. -/
theorem C8_witness :
    db_names_alloc [("1:2 fine").toList, ("?").toList] =
      .error (("?").toList) :=
  (C8_corrupt_line_fatal [("1:2 fine").toList, ("?").toList]
    (("?").toList) (by decide)).1

namespace Names

theorem mem_dbEntries_of_getD {db : Db} {i : Nat} {e : Entry}
    (he : e ∈ db.hash.getD i []) : e ∈ dbEntries db := by
  by_cases hi : i < db.hash.length
  · rw [List.getD_eq_getElem _ _ hi] at he
    exact List.mem_flatMap.mpr ⟨db.hash[i], List.getElem_mem hi, he⟩
  · rw [List.getD_eq_default _ _ (Nat.le_of_not_lt hi)] at he
    exact (List.not_mem_nil e he).elim

theorem scanBuckets_mem {db : Db} {name : List Char} {e : Entry}
    (h : scanBuckets db name = some e) :
    e ∈ dbEntries db ∧ e.name = name := by
  unfold scanBuckets at h
  obtain ⟨i, _, hfind⟩ := List.exists_of_findSome?_eq_some h
  refine ⟨mem_dbEntries_of_getD (List.mem_of_find?_eq_some hfind), ?_⟩
  have := List.find?_some hfind
  simpa using this

theorem scanBuckets_none {db : Db} {name : List Char}
    (hsz : db.hash.length ≤ db.size) (h : scanBuckets db name = none) :
    ∀ e ∈ dbEntries db, e.name ≠ name := by
  intro e he
  obtain ⟨b, hb, heb⟩ := List.mem_flatMap.mp he
  obtain ⟨i, hilt, hieq⟩ := List.mem_iff_getElem.mp hb
  unfold scanBuckets at h
  have hall := List.findSome?_eq_none_iff.mp h i (by
    simp only [List.mem_range]
    omega)
  rw [List.getD_eq_getElem _ _ hilt, hieq] at hall
  have := List.find?_eq_none.mp hall e heb
  simpa using this

theorem name_to_id_keeps_table (db : Db) (name : List Char) :
    (name_to_id db name).2.hash = db.hash ∧
    (name_to_id db name).2.size = db.size := by
  cases hcc : db.cached with
  | none => cases h : scanBuckets db name <;> simp [name_to_id, hcc, h]
  | some c =>
    by_cases hc : c.name = name
    · simp [name_to_id, hcc, hc]
    · cases h : scanBuckets db name <;> simp [name_to_id, hcc, hc, h]

theorem name_to_id_cacheWF {db : Db} (hwf : CacheWF db) (name : List Char) :
    CacheWF (name_to_id db name).2 := by
  intro e heq
  have hent : dbEntries (name_to_id db name).2 = dbEntries db := by
    unfold dbEntries
    rw [(name_to_id_keeps_table db name).1]
  rw [hent]
  cases hcc : db.cached with
  | none =>
    cases h : scanBuckets db name with
    | none => simp [name_to_id, hcc, h] at heq
    | some e' =>
      simp [name_to_id, hcc, h] at heq
      rw [← heq]
      exact (scanBuckets_mem h).1
  | some c =>
    by_cases hc : c.name = name
    · simp [name_to_id, hcc, hc] at heq
      rw [← heq]
      exact hwf c hcc
    · cases h : scanBuckets db name with
      | none =>
        simp [name_to_id, hcc, hc, h] at heq
        rw [← heq]
        exact hwf c hcc
      | some e' =>
        simp [name_to_id, hcc, hc, h] at heq
        rw [← heq]
        exact (scanBuckets_mem h).1

theorem name_to_id_some_spec {db : Db} {name : List Char} {id : Int}
    (hwf : CacheWF db) (h : (name_to_id db name).1 = some id) :
    ∃ e ∈ dbEntries db, e.name = name ∧ e.id = id := by
  cases hcc : db.cached with
  | none =>
    cases hs : scanBuckets db name with
    | none => simp [name_to_id, hcc, hs] at h
    | some e' =>
      simp [name_to_id, hcc, hs] at h
      exact ⟨e', (scanBuckets_mem hs).1, (scanBuckets_mem hs).2, h⟩
  | some c =>
    by_cases hc : c.name = name
    · simp [name_to_id, hcc, hc] at h
      exact ⟨c, hwf c hcc, hc, h⟩
    · cases hs : scanBuckets db name with
      | none => simp [name_to_id, hcc, hc, hs] at h
      | some e' =>
        simp [name_to_id, hcc, hc, hs] at h
        exact ⟨e', (scanBuckets_mem hs).1, (scanBuckets_mem hs).2, h⟩

theorem name_to_id_none_spec {db : Db} {name : List Char}
    (hsz : db.hash.length ≤ db.size) (h : (name_to_id db name).1 = none) :
    ∀ e ∈ dbEntries db, e.name ≠ name := by
  cases hcc : db.cached with
  | none =>
    cases hs : scanBuckets db name with
    | none => exact scanBuckets_none hsz hs
    | some e' => simp [name_to_id, hcc, hs] at h
  | some c =>
    by_cases hc : c.name = name
    · simp [name_to_id, hcc, hc] at h
    · cases hs : scanBuckets db name with
      | none => exact scanBuckets_none hsz hs
      | some e' => simp [name_to_id, hcc, hc, hs] at h

theorem runLookups_keeps_table (names : List (List Char)) : ∀ db : Db,
    (runLookups db names).hash = db.hash ∧
    (runLookups db names).size = db.size := by
  induction names with
  | nil => intro db; exact ⟨rfl, rfl⟩
  | cons n ns ih =>
    intro db
    have h1 := name_to_id_keeps_table db n
    have h2 := ih (name_to_id db n).2
    exact ⟨(h2.1.trans h1.1), (h2.2.trans h1.2)⟩

theorem runLookups_cacheWF (names : List (List Char)) : ∀ db : Db,
    CacheWF db → CacheWF (runLookups db names) := by
  induction names with
  | nil => intro db h; exact h
  | cons n ns ih =>
    intro db h
    exact ih _ (name_to_id_cacheWF h n)

end Names

open Names in
/-- C10: after any sequence of `name_to_id` calls on a loaded registry, the
one-entry cache is empty or points to an entry stored in the hash table,
the stored entries are unchanged, and a lookup succeeds exactly when an
entry with that exact name exists — a successful lookup returns an id
registered under exactly that name, so the cache never distorts a
lookup. -/
theorem C10_lookup_cache_correct (lines : List (List Char)) (db0 : Db)
    (names : List (List Char)) (h : db_names_alloc lines = .ok db0) :
    CacheWF (runLookups db0 names) ∧
    dbEntries (runLookups db0 names) = dbEntries db0 ∧
    (∀ name : List Char,
      ((name_to_id (runLookups db0 names) name).1.isSome = true ↔
        ∃ e ∈ dbEntries db0, e.name = name) ∧
      ∀ id, (name_to_id (runLookups db0 names) name).1 = some id →
        ∃ e ∈ dbEntries db0, e.name = name ∧ e.id = id) := by
  obtain ⟨⟨hsize, hlen, _⟩, hcached⟩ := db_names_alloc_wf h
  have hwf0 : CacheWF db0 := by
    intro e he
    rw [hcached] at he
    exact absurd he (by simp)
  have hwf := runLookups_cacheWF names db0 hwf0
  have hkeep := runLookups_keeps_table names db0
  have hent : dbEntries (runLookups db0 names) = dbEntries db0 := by
    unfold dbEntries
    rw [hkeep.1]
  have hsz : (runLookups db0 names).hash.length ≤ (runLookups db0 names).size := by
    rw [hkeep.1, hkeep.2, hlen, hsize]
  refine ⟨hwf, hent, ?_⟩
  intro name
  constructor
  · constructor
    · intro hs
      cases hid : (name_to_id (runLookups db0 names) name).1 with
      | none => rw [hid] at hs; simp at hs
      | some id =>
        obtain ⟨e, he, hen, _⟩ := name_to_id_some_spec hwf hid
        exact ⟨e, hent ▸ he, hen⟩
    · intro ⟨e, he, hen⟩
      cases hid : (name_to_id (runLookups db0 names) name).1 with
      | none =>
        exact absurd hen (name_to_id_none_spec hsz hid e (hent ▸ he))
      | some id => simp
  · intro id hid
    obtain ⟨e, he, hen, heid⟩ := name_to_id_some_spec hwf hid
    exact ⟨e, hent ▸ he, hen, heid⟩

set_option maxRecDepth 40000 in
open Names in
/-- C10 witness: on the registry with `webtraffic` and `other`, after one
cached lookup, a registered name still resolves and an unregistered one
still fails. -/
theorem C10_witness :
    (name_to_id (runLookups dbL [("webtraffic").toList])
      (("webtraffic").toList)).1.isSome = true ∧
    (name_to_id (runLookups dbL [("webtraffic").toList])
      (("nosuch").toList)).1 = none := by
  have h := C10_lookup_cache_correct
    [("100:5 webtraffic").toList, ("7 other").toList] dbL
    [("webtraffic").toList] rfl
  refine ⟨(h.2.2 (("webtraffic").toList)).1.mpr ?_, by decide⟩
  decide
